import Mathlib

/-!
Verification of `scripts/validate-github-actions.py` (and the exit-status
aggregation of its `main`) from the FHIR-Tech/fhir-ai-backend repository.

The script loads a YAML document with `yaml.safe_load` and then runs
`validate_github_actions_workflow`, a sequence of structural checks that
accumulate issue strings.  The whole body sits inside a
`try ... except yaml.YAMLError ... except Exception` block, so any Python
exception raised by the checks themselves (TypeError from `in` on a
non-iterable, AttributeError from `.keys()` / `.items()` / `.get` on a
non-dict, TypeError from subscripting) is caught and turned into the error
result `(False, ["Error reading file: " + str(e)])`.

We embed the post-parse value universe (`Yaml`), the Python operations the
script uses (membership `in`, `.keys()`, `.items()`, iteration, subscript,
`.get`, `str()`), and the function itself, with exceptions modelled by
`Except String`.  Mappings are association lists; a list produced by the
YAML parser always has pairwise distinct keys, since Python dicts cannot
hold duplicates.
-/

/-- Scalar key of a YAML mapping as `yaml.safe_load` produces it:
a string, a bool (a bare `on:` key parses as boolean `True`), an int,
or `None`. -/
inductive YKey where
  | s : String → YKey
  | b : Bool → YKey
  | i : Int → YKey
  | null : YKey
deriving DecidableEq

/-- A parsed YAML value: scalar, sequence (Python list) or mapping
(Python dict, modelled as an association list in insertion order). -/
inductive Yaml where
  | s : String → Yaml
  | b : Bool → Yaml
  | i : Int → Yaml
  | null : Yaml
  | seq : List Yaml → Yaml
  | map : List (YKey × Yaml) → Yaml

/-- Python type name of a value, as it appears in exception messages. -/
def typeName : Yaml → String
  | .s _ => "str"
  | .b _ => "bool"
  | .i _ => "int"
  | .null => "NoneType"
  | .seq _ => "list"
  | .map _ => "dict"

/-- Python `str()` of a mapping key (`str(True) = "True"`, `str(None) = "None"`). -/
def keyStr : YKey → String
  | .s t => t
  | .b true => "True"
  | .b false => "False"
  | .i n => toString n
  | .null => "None"

/-- Python `==` between a mapping key and a string: only an equal string
key compares equal (`True == 'on'` and `1 == 'on'` are `False`). -/
def keyIsStr (k : YKey) (t : String) : Bool :=
  match k with
  | .s u => u == t
  | _ => false

/-- Python `key is True`: exactly the boolean-true key. -/
def isTrueKey : YKey → Bool
  | .b true => true
  | _ => false

/-- Python `==` between a YAML value and a string. -/
def yEqStr (v : Yaml) (t : String) : Bool :=
  match v with
  | .s u => u == t
  | _ => false

/-- Leading-segment test on character lists, for Python substring search. -/
def charsLead : List Char → List Char → Bool
  | [], _ => true
  | _ :: _, [] => false
  | a :: as, b :: bs => a == b && charsLead as bs

/-- Contiguous-occurrence test on character lists. -/
def charsOccur (needle : List Char) : List Char → Bool
  | [] => charsLead needle []
  | b :: bs => charsLead needle (b :: bs) || charsOccur needle bs

/-- Python `needle in hay` for two strings: substring containment. -/
def pyStrMem (needle hay : String) : Bool :=
  charsOccur needle.toList hay.toList

/-- A key whose string form is present in the mapping (Python dict
membership against a string). -/
def hasKeyStr (kvs : List (YKey × Yaml)) (t : String) : Bool :=
  kvs.any fun kv => keyIsStr kv.1 t

/-- Python dict lookup `d[t]` for a string key (keys are pairwise
distinct in any list coming from a parsed document, so first match is
the match). -/
def dictLookup (kvs : List (YKey × Yaml)) (t : String) : Option Yaml :=
  match kvs.find? (fun kv => keyIsStr kv.1 t) with
  | some kv => some kv.2
  | none => none

/-- Python `t in v` for a string `t`: dict key membership, list element
equality, substring test on strings; `TypeError` on non-iterables. -/
def pyIn (t : String) (v : Yaml) : Except String Bool :=
  match v with
  | .map kvs => .ok (hasKeyStr kvs t)
  | .seq xs => .ok (xs.any fun x => yEqStr x t)
  | .s hay => .ok (pyStrMem t hay)
  | v => .error ("argument of type '" ++ typeName v ++ "' is not iterable")

/-- Python `v.keys()`: the keys of a dict, `AttributeError` otherwise. -/
def pyKeys (v : Yaml) : Except String (List YKey) :=
  match v with
  | .map kvs => .ok (kvs.map fun kv => kv.1)
  | v => .error ("'" ++ typeName v ++ "' object has no attribute 'keys'")

/-- Python `v.items()`: the key/value pairs of a dict, `AttributeError`
otherwise. -/
def pyItems (v : Yaml) : Except String (List (YKey × Yaml)) :=
  match v with
  | .map kvs => .ok kvs
  | v => .error ("'" ++ typeName v ++ "' object has no attribute 'items'")

/-- Python `v[t]` for a string key `t`: dict lookup; `TypeError` on the
other container shapes and scalars. -/
def pySubscript (v : Yaml) (t : String) : Except String Yaml :=
  match v with
  | .map kvs =>
    match dictLookup kvs t with
    | some w => .ok w
    | none => .error ("'" ++ t ++ "'")
  | .s _ => .error "string indices must be integers"
  | .seq _ => .error "list indices must be integers or slices, not str"
  | v => .error ("'" ++ typeName v ++ "' object is not subscriptable")

/-- Python iteration over a value: a list yields its elements, a dict its
keys, a string its characters; `TypeError` otherwise. -/
def pyIter (v : Yaml) : Except String (List Yaml) :=
  match v with
  | .seq xs => .ok xs
  | .map kvs => .ok (kvs.map fun kv =>
      match kv.1 with
      | .s t => Yaml.s t
      | .b c => Yaml.b c
      | .i n => Yaml.i n
      | .null => Yaml.null)
  | .s t => .ok (t.toList.map fun c => Yaml.s (String.mk [c]))
  | v => .error ("'" ++ typeName v ++ "' object is not iterable")

/-- Python `repr()` of a mapping key. -/
def keyRepr : YKey → String
  | .s t => "'" ++ t ++ "'"
  | .b true => "True"
  | .b false => "False"
  | .i n => toString n
  | .null => "None"

mutual
/-- Python `repr()` of a parsed YAML value (string escaping not modelled;
no parsed value in this development needs it). -/
def pyRepr : Yaml → String
  | .s t => "'" ++ t ++ "'"
  | .b true => "True"
  | .b false => "False"
  | .i n => toString n
  | .null => "None"
  | .seq xs => "[" ++ pyReprSeq xs ++ "]"
  | .map kvs => "\x7b" ++ pyReprMap kvs ++ "\x7d"

/-- Comma-separated `repr()`s of the elements of a Python list. -/
def pyReprSeq : List Yaml → String
  | [] => ""
  | [x] => pyRepr x
  | x :: y :: rest => pyRepr x ++ ", " ++ pyReprSeq (y :: rest)

/-- Comma-separated `repr()`s of the entries of a Python dict. -/
def pyReprMap : List (YKey × Yaml) → String
  | [] => ""
  | [(k, v)] => keyRepr k ++ ": " ++ pyRepr v
  | (k, v) :: kv :: rest => keyRepr k ++ ": " ++ pyRepr v ++ ", " ++ pyReprMap (kv :: rest)
end

/-- Python `str()` of a parsed YAML value, as an f-string renders it. -/
def pyStr : Yaml → String
  | .s t => t
  | v => pyRepr v

/-- Python `step.get('name', default)`: the stringified stored value when
the key is present, the default otherwise; `AttributeError` when `step`
is not a dict. -/
def pyGetLabel (st : Yaml) (deflt : String) : Except String String :=
  match st with
  | .map kvs =>
    match dictLookup kvs "name" with
    | some v => .ok (pyStr v)
    | none => .ok deflt
  | v => .error ("'" ++ typeName v ++ "' object has no attribute 'get'")

/-- The three document-level messages of `validate_github_actions_workflow`. -/
def nameMsg : String := "Missing 'name' field"

/-- Message for a document with no trigger key. -/
def onMsg : String := "Missing 'on' field (triggers)"

/-- Message for a document with no `jobs` key. -/
def jobsMsg : String := "Missing 'jobs' field"

/-- Python `s.lower()` restricted to ASCII case mapping (no key in a
workflow document needs the full Unicode table). -/
def pyLower (s : String) : String :=
  String.mk (s.toList.map Char.toLower)

/-- The trigger-key test of the script: `str(key).lower() == 'on' or key is True`. -/
def isOnKey (k : YKey) : Bool :=
  pyLower (keyStr k) == "on" || isTrueKey k

/-- The document has some key satisfying the trigger-key test (the
`for key in workflow.keys(): ... break` loop sets `has_on_field`). -/
def hasOnKey (kvs : List (YKey × Yaml)) : Bool :=
  kvs.any fun kv => isOnKey kv.1

/-- One step of the inner loop
`for i, step in enumerate(job_config['steps'])`: the two per-step checks,
with Python's short-circuit `'uses' not in step and 'run' not in step`
and the `step.get('name', f'...')` label. -/
def processStep (jobName : String) (i : Nat) (st : Yaml) : Except String (List String) :=
  match pyIn "name" st with
  | .error e => .error e
  | .ok nameIn =>
    let i1 := if nameIn then []
      else ["Job '" ++ jobName ++ "' step " ++ toString (i + 1) ++ " missing 'name' field"]
    match pyIn "uses" st with
    | .error e => .error e
    | .ok usesIn =>
      if usesIn then .ok i1
      else
        match pyIn "run" st with
        | .error e => .error e
        | .ok runIn =>
          if runIn then .ok i1
          else
            match pyGetLabel st (toString (i + 1)) with
            | .error e => .error e
            | .ok label =>
              .ok (i1 ++ ["Job '" ++ jobName ++ "' step '" ++ label ++
                "' missing 'uses' or 'run' field"])

/-- The step loop over the elements of `job_config['steps']`, indices
starting at 0 as `enumerate` produces them. -/
def processSteps (jobName : String) : Nat → List Yaml → Except String (List String)
  | _, [] => .ok []
  | i, st :: rest =>
    match processStep jobName i st with
    | .error e => .error e
    | .ok b =>
      match processSteps jobName (i + 1) rest with
      | .error e => .error e
      | .ok brest => .ok (b ++ brest)

/-- The per-job body of `for job_name, job_config in workflow['jobs'].items()`:
the `runs-on` check, the `steps` presence check, and on presence the step
loop over `job_config['steps']`. -/
def processJob (jobName : String) (jc : Yaml) : Except String (List String) :=
  match pyIn "runs-on" jc with
  | .error e => .error e
  | .ok runsOnIn =>
    let i1 := if runsOnIn then []
      else ["Job '" ++ jobName ++ "' missing 'runs-on' field"]
    match pyIn "steps" jc with
    | .error e => .error e
    | .ok stepsIn =>
      if stepsIn then
        match pySubscript jc "steps" with
        | .error e => .error e
        | .ok stepsVal =>
          match pyIter stepsVal with
          | .error e => .error e
          | .ok sts =>
            match processSteps jobName 0 sts with
            | .error e => .error e
            | .ok sb => .ok (i1 ++ sb)
      else .ok (i1 ++ ["Job '" ++ jobName ++ "' missing 'steps' field"])

/-- The job loop: each entry of `workflow['jobs'].items()` in insertion
order, the key rendered with `str()` into the messages. -/
def processJobs : List (YKey × Yaml) → Except String (List String)
  | [] => .ok []
  | (k, jc) :: rest =>
    match processJob (keyStr k) jc with
    | .error e => .error e
    | .ok b =>
      match processJobs rest with
      | .error e => .error e
      | .ok brest => .ok (b ++ brest)

/-- The `try` body of `validate_github_actions_workflow` after the
`yaml.safe_load` call: the `name` check, the trigger-key scan over
`workflow.keys()`, the `jobs` checks and the job loop, accumulating
issue strings in program order; `.error` is a raised Python exception. -/
def validateBody (w : Yaml) : Except String (List String) :=
  match pyIn "name" w with
  | .error e => .error e
  | .ok nameIn =>
    match pyKeys w with
    | .error e => .error e
    | .ok keys =>
      let hasOn := keys.any isOnKey
      match pyIn "jobs" w with
      | .error e => .error e
      | .ok jobsIn =>
        let issues :=
          (if nameIn then [] else [nameMsg]) ++
          (if hasOn then [] else [onMsg]) ++
          (if jobsIn then [] else [jobsMsg])
        if jobsIn then
          match pySubscript w "jobs" with
          | .error e => .error e
          | .ok jobsVal =>
            match pyItems jobsVal with
            | .error e => .error e
            | .ok items =>
              match processJobs items with
              | .error e => .error e
              | .ok ji => .ok (issues ++ ji)
        else .ok issues

/-- `validate_github_actions_workflow` on an already-parsed document:
the `try` body's result on success, and on a raised exception the
`except Exception` arm `(False, ["Error reading file: " + str(e)])`. -/
def validate_github_actions_workflow (w : Yaml) : Bool × List String :=
  match validateBody w with
  | .ok issues => (true, issues)
  | .error e => (false, ["Error reading file: " ++ e])

/-- The `valid_count` / `invalid_count` fold of `main` over the per-file
results: a file counts as valid iff `is_valid and not issues`. -/
def summaryCounts (results : List (Bool × List String)) : Nat × Nat :=
  results.foldl
    (fun acc r => if r.1 && r.2.isEmpty then (acc.1 + 1, acc.2) else (acc.1, acc.2 + 1))
    (0, 0)

/-- The exit status of `main`, abstracting the discovered files to their
validation results in discovery order: `1` when no workflow files were
found, else `1` iff `invalid_count > 0`. -/
def mainExitStatus (results : List (Bool × List String)) : Nat :=
  if results.isEmpty then 1
  else if 0 < (summaryCounts results).2 then 1 else 0

/-- The document is a Mapping (Python dict) at the root. -/
def isMapping : Yaml → Bool
  | .map _ => true
  | _ => false

/-- The document-level issue block of the script: the `name` check, the
trigger-key scan and the `jobs` check, in program order. -/
def docIssues (kvs : List (YKey × Yaml)) : List String :=
  (if hasKeyStr kvs "name" then [] else [nameMsg]) ++
  (if hasOnKey kvs then [] else [onMsg]) ++
  (if hasKeyStr kvs "jobs" then [] else [jobsMsg])

/-- The computation finished without a raised exception. -/
def exceptOk : Except String (List String) → Bool
  | .ok _ => true
  | .error _ => false

/-- The issue list of a successful computation (empty on an exception). -/
def exceptList : Except String (List String) → List String
  | .ok l => l
  | .error _ => []

/-- `any` over a mapped list, for an arbitrary mapping function. -/
theorem any_map_general {α β : Type} (l : List α) (f : α → β) (p : β → Bool) :
    (l.map f).any p = l.any fun x => p (f x) := by
  induction l with
  | nil => rfl
  | cons x xs ih => simp [List.any_cons, ih]

/-- A successful string-key lookup means the membership test succeeds. -/
theorem hasKeyStr_of_lookup {kvs : List (YKey × Yaml)} {t : String} {v : Yaml}
    (h : dictLookup kvs t = some v) : hasKeyStr kvs t = true := by
  unfold dictLookup at h
  cases hf : kvs.find? (fun kv => keyIsStr kv.1 t) with
  | none => rw [hf] at h; exact absurd h (by simp)
  | some kv =>
    exact List.any_eq_true.mpr
      ⟨kv, List.mem_of_find?_eq_some hf,
        List.find?_some (p := fun (kv : YKey × Yaml) => keyIsStr kv.1 t) hf⟩

/-- A successful membership test means the string-key lookup succeeds. -/
theorem lookup_of_hasKeyStr {kvs : List (YKey × Yaml)} {t : String}
    (h : hasKeyStr kvs t = true) : ∃ v, dictLookup kvs t = some v := by
  obtain ⟨kv, hmem, hp⟩ := List.any_eq_true.mp h
  have : (kvs.find? (fun kv => keyIsStr kv.1 t)).isSome := by
    rw [List.find?_isSome]
    exact ⟨kv, hmem, hp⟩
  cases hf : kvs.find? (fun kv => keyIsStr kv.1 t) with
  | none => rw [hf] at this; exact absurd this (by simp)
  | some kv' => exact ⟨kv'.2, by unfold dictLookup; rw [hf]⟩

/-- Two strings with different first characters are different. -/
theorem ne_of_head {a b : String} (h : a.data.head? ≠ b.data.head?) : a ≠ b :=
  fun e => h (by rw [e])

/-- The missing-trigger message is not a per-job message. -/
theorem onMsg_ne_jobPrefixed (r : String) : onMsg ≠ "Job '" ++ r := by
  apply ne_of_head
  rw [String.data_append]
  intro h
  simp [onMsg] at h

/-- The missing-trigger message is not a caught-exception message. -/
theorem onMsg_ne_errPrefixed (e : String) : onMsg ≠ "Error reading file: " ++ e := by
  apply ne_of_head
  rw [String.data_append]
  intro h
  simp [onMsg] at h

/-- Every issue string produced by the per-step checks carries the
`Job '...` prefix. -/
theorem processStep_shape {n : String} {i : Nat} {st : Yaml} {b : List String}
    (hb : processStep n i st = .ok b) : ∀ m ∈ b, ∃ r, m = "Job '" ++ r := by
  unfold processStep at hb
  cases h1 : pyIn "name" st with
  | error e => rw [h1] at hb; exact Except.noConfusion hb
  | ok nameIn =>
    rw [h1] at hb
    cases h2 : pyIn "uses" st with
    | error e => rw [h2] at hb; exact Except.noConfusion hb
    | ok usesIn =>
      rw [h2] at hb
      cases usesIn with
      | true =>
        simp at hb
        subst hb
        intro m hm
        cases nameIn with
        | true => simp at hm
        | false =>
          simp at hm
          exact ⟨_, by rw [hm, String.append_assoc, String.append_assoc,
            String.append_assoc]⟩
      | false =>
        cases h3 : pyIn "run" st with
        | error e => rw [h3] at hb; exact Except.noConfusion hb
        | ok runIn =>
          rw [h3] at hb
          cases runIn with
          | true =>
            simp at hb
            subst hb
            intro m hm
            cases nameIn with
            | true => simp at hm
            | false =>
              simp at hm
              exact ⟨_, by rw [hm, String.append_assoc, String.append_assoc,
                String.append_assoc]⟩
          | false =>
            cases h4 : pyGetLabel st (toString (i + 1)) with
            | error e => rw [h4] at hb; exact Except.noConfusion hb
            | ok label =>
              rw [h4] at hb
              simp at hb
              subst hb
              intro m hm
              cases nameIn with
              | true =>
                simp at hm
                exact ⟨_, by rw [hm, String.append_assoc, String.append_assoc,
                  String.append_assoc]⟩
              | false =>
                simp at hm
                cases hm with
                | inl hm =>
                  exact ⟨_, by rw [hm, String.append_assoc, String.append_assoc,
                    String.append_assoc]⟩
                | inr hm =>
                  exact ⟨_, by rw [hm, String.append_assoc, String.append_assoc,
                    String.append_assoc]⟩

/-- Every issue string produced by the step loop carries the `Job '...`
prefix. -/
theorem processSteps_shape {n : String} : ∀ (sts : List Yaml) (i : Nat) (b : List String),
    processSteps n i sts = .ok b → ∀ m ∈ b, ∃ r, m = "Job '" ++ r := by
  intro sts
  induction sts with
  | nil =>
    intro i b hb
    simp [processSteps] at hb
    subst hb
    intro m hm
    simp at hm
  | cons st rest ih =>
    intro i b hb
    unfold processSteps at hb
    cases h1 : processStep n i st with
    | error e => rw [h1] at hb; exact Except.noConfusion hb
    | ok b1 =>
      rw [h1] at hb
      cases h2 : processSteps n (i + 1) rest with
      | error e => rw [h2] at hb; exact Except.noConfusion hb
      | ok b2 =>
        rw [h2] at hb
        simp at hb
        subst hb
        intro m hm
        rw [List.mem_append] at hm
        cases hm with
        | inl hm => exact processStep_shape h1 m hm
        | inr hm => exact ih (i + 1) b2 h2 m hm

/-- Every issue string produced by the per-job checks carries the
`Job '...` prefix. -/
theorem processJob_shape {n : String} {jc : Yaml} {b : List String}
    (hb : processJob n jc = .ok b) : ∀ m ∈ b, ∃ r, m = "Job '" ++ r := by
  unfold processJob at hb
  cases h1 : pyIn "runs-on" jc with
  | error e => rw [h1] at hb; exact Except.noConfusion hb
  | ok runsOnIn =>
    rw [h1] at hb
    cases h2 : pyIn "steps" jc with
    | error e => rw [h2] at hb; exact Except.noConfusion hb
    | ok stepsIn =>
      rw [h2] at hb
      cases stepsIn with
      | false =>
        simp at hb
        subst hb
        intro m hm
        cases runsOnIn with
        | true =>
          simp at hm
          exact ⟨_, by rw [hm, String.append_assoc]⟩
        | false =>
          simp at hm
          cases hm with
          | inl hm => exact ⟨_, by rw [hm, String.append_assoc]⟩
          | inr hm => exact ⟨_, by rw [hm, String.append_assoc]⟩
      | true =>
        cases h3 : pySubscript jc "steps" with
        | error e => rw [h3] at hb; exact Except.noConfusion hb
        | ok sv =>
          rw [h3] at hb
          dsimp only at hb
          cases h4 : pyIter sv with
          | error e => rw [h4] at hb; exact Except.noConfusion hb
          | ok sts =>
            rw [h4] at hb
            dsimp only at hb
            cases h5 : processSteps n 0 sts with
            | error e => rw [h5] at hb; exact Except.noConfusion hb
            | ok sb =>
              rw [h5] at hb
              simp at hb
              subst hb
              intro m hm
              rw [List.mem_append] at hm
              cases hm with
              | inl hm =>
                cases runsOnIn with
                | true => simp at hm
                | false =>
                  simp at hm
                  exact ⟨_, by rw [hm, String.append_assoc]⟩
              | inr hm => exact processSteps_shape sts 0 sb h5 m hm

/-- Every issue string produced by the job loop carries the `Job '...`
prefix. -/
theorem processJobs_shape : ∀ {items : List (YKey × Yaml)} {b : List String},
    processJobs items = .ok b → ∀ m ∈ b, ∃ r, m = "Job '" ++ r := by
  intro items
  induction items with
  | nil =>
    intro b hb
    simp [processJobs] at hb
    subst hb
    intro m hm
    simp at hm
  | cons kv rest ih =>
    intro b hb
    obtain ⟨k, jc⟩ := kv
    unfold processJobs at hb
    cases h1 : processJob (keyStr k) jc with
    | error e => rw [h1] at hb; exact Except.noConfusion hb
    | ok b1 =>
      rw [h1] at hb
      cases h2 : processJobs rest with
      | error e => rw [h2] at hb; exact Except.noConfusion hb
      | ok b2 =>
        rw [h2] at hb
        simp at hb
        subst hb
        intro m hm
        rw [List.mem_append] at hm
        cases hm with
        | inl hm => exact processJob_shape h1 m hm
        | inr hm => exact ih h2 m hm

/-- When every job body finishes without a raised exception, the job loop
returns the per-job issue blocks concatenated in declaration order. -/
theorem processJobs_flatten : ∀ (items : List (YKey × Yaml)),
    (∀ kv ∈ items, exceptOk (processJob (keyStr kv.1) kv.2) = true) →
    processJobs items =
      .ok ((items.map fun kv => exceptList (processJob (keyStr kv.1) kv.2)).flatten) := by
  intro items
  induction items with
  | nil => intro _; rfl
  | cons kv rest ih =>
    intro h
    obtain ⟨k, jc⟩ := kv
    have hk := h (k, jc) (by simp)
    cases h1 : processJob (keyStr k) jc with
    | error e => rw [h1] at hk; exact absurd hk (by simp [exceptOk])
    | ok b1 =>
      have hrest := ih fun kv hkv => h kv (List.mem_cons_of_mem _ hkv)
      unfold processJobs
      rw [h1, hrest]
      simp [exceptList, h1]

/-- Input class of the valid-minimal-document claim: a step Mapping with a
`name` key and a `uses` or `run` key. -/
def stepOkC3 : Yaml → Bool
  | .map skvs => hasKeyStr skvs "name" && (hasKeyStr skvs "uses" || hasKeyStr skvs "run")
  | _ => false

/-- Input class of the valid-minimal-document claim: a job Mapping with a
`runs-on` key and a `steps` key holding a nonempty Sequence of valid steps. -/
def jobOkC3 : Yaml → Bool
  | .map jckvs =>
    hasKeyStr jckvs "runs-on" &&
      (match dictLookup jckvs "steps" with
       | some (.seq sts) => !sts.isEmpty && sts.all stepOkC3
       | _ => false)
  | _ => false

/-- Input class of the valid-minimal-document claim: a Mapping with a
`name` key, a trigger key that is the string `on` or the boolean-true key,
and a `jobs` Mapping with at least one job, all of whose jobs are valid. -/
def validMinimalC3 : Yaml → Bool
  | .map kvs =>
    hasKeyStr kvs "name" &&
      (kvs.any fun kv => keyIsStr kv.1 "on" || isTrueKey kv.1) &&
      (match dictLookup kvs "jobs" with
       | some (.map jobs) => !jobs.isEmpty && jobs.all fun kv => jobOkC3 kv.2
       | _ => false)
  | _ => false

/-- A key that is literally the string `on` or the boolean-true key passes
the trigger-key test of the script. -/
theorem isOnKey_of_claim {k : YKey} (h : (keyIsStr k "on" || isTrueKey k) = true) :
    isOnKey k = true := by
  cases k with
  | s u =>
    simp [keyIsStr, isTrueKey] at h
    subst h
    decide
  | b c =>
    cases c with
    | true => simp [isOnKey, isTrueKey]
    | false => simp [keyIsStr, isTrueKey] at h
  | i n => simp [keyIsStr, isTrueKey] at h
  | null => simp [keyIsStr, isTrueKey] at h

/-- A valid step produces no issues. -/
theorem processStep_valid {n : String} {i : Nat} {st : Yaml}
    (h : stepOkC3 st = true) : processStep n i st = .ok [] := by
  cases st with
  | map skvs =>
    simp [stepOkC3] at h
    obtain ⟨hn, hu⟩ := h
    cases hus : hasKeyStr skvs "uses" with
    | true => simp [processStep, pyIn, hn, hus]
    | false =>
      have hr : hasKeyStr skvs "run" = true := by
        cases hu with
        | inl h1 => rw [hus] at h1; exact absurd h1 (by simp)
        | inr h1 => exact h1
      simp [processStep, pyIn, hn, hus, hr]
  | s t => simp [stepOkC3] at h
  | b c => simp [stepOkC3] at h
  | i n => simp [stepOkC3] at h
  | null => simp [stepOkC3] at h
  | seq xs => simp [stepOkC3] at h

/-- A list of valid steps produces no issues, from any start index. -/
theorem processSteps_valid {n : String} : ∀ (sts : List Yaml) (i : Nat),
    (∀ st ∈ sts, stepOkC3 st = true) → processSteps n i sts = .ok [] := by
  intro sts
  induction sts with
  | nil => intro i _; rfl
  | cons st rest ih =>
    intro i h
    unfold processSteps
    rw [processStep_valid (h st (by simp)),
      ih (i + 1) fun x hx => h x (List.mem_cons_of_mem _ hx)]
    rfl

/-- A valid job produces no issues. -/
theorem processJob_valid {n : String} {jc : Yaml}
    (h : jobOkC3 jc = true) : processJob n jc = .ok [] := by
  cases jc with
  | map jckvs =>
    simp only [jobOkC3, Bool.and_eq_true] at h
    obtain ⟨hro, hsteps⟩ := h
    cases hls : dictLookup jckvs "steps" with
    | none => rw [hls] at hsteps; exact absurd hsteps (by simp)
    | some v =>
      rw [hls] at hsteps
      cases v with
      | seq sts =>
        simp only [Bool.and_eq_true] at hsteps
        obtain ⟨-, hall⟩ := hsteps
        have hstepsIn := hasKeyStr_of_lookup hls
        have hsv := processSteps_valid (n := n) sts 0 fun st hst =>
          List.all_eq_true.mp hall st hst
        unfold processJob
        simp only [pyIn, pySubscript, pyIter, hro, hstepsIn, hls]
        rw [hsv]
        rfl
      | s t => exact absurd hsteps (by simp)
      | b c => exact absurd hsteps (by simp)
      | i m => exact absurd hsteps (by simp)
      | null => exact absurd hsteps (by simp)
      | map m => exact absurd hsteps (by simp)
  | s t => simp [jobOkC3] at h
  | b c => simp [jobOkC3] at h
  | i n => simp [jobOkC3] at h
  | null => simp [jobOkC3] at h
  | seq xs => simp [jobOkC3] at h

/-- A list of valid jobs produces no issues. -/
theorem processJobs_valid : ∀ (items : List (YKey × Yaml)),
    (∀ kv ∈ items, jobOkC3 kv.2 = true) → processJobs items = .ok [] := by
  intro items
  induction items with
  | nil => intro _; rfl
  | cons kv rest ih =>
    intro h
    obtain ⟨k, jc⟩ := kv
    unfold processJobs
    rw [processJob_valid (h (k, jc) (by simp)),
      ih fun x hx => h x (List.mem_cons_of_mem _ hx)]
    rfl

/-- On a Mapping without a `jobs` key the body returns exactly the
document-level issue block. -/
theorem validateBody_map_nojobs {kvs : List (YKey × Yaml)}
    (h : hasKeyStr kvs "jobs" = false) :
    validateBody (.map kvs) = .ok (docIssues kvs) := by
  unfold validateBody
  simp only [pyIn, pyKeys]
  rw [any_map_general]
  simp [h, docIssues, hasOnKey]

/-- On a Mapping whose `jobs` key holds value `v` the body returns the
document-level block followed by the job loop's outcome on `v`. -/
theorem validateBody_map_jobs {kvs : List (YKey × Yaml)} {v : Yaml}
    (h : dictLookup kvs "jobs" = some v) :
    validateBody (.map kvs) =
      match pyItems v with
      | .error e => .error e
      | .ok items =>
        match processJobs items with
        | .error e => .error e
        | .ok ji => .ok (docIssues kvs ++ ji) := by
  have hj := hasKeyStr_of_lookup h
  unfold validateBody
  simp only [pyIn, pyKeys, pySubscript]
  rw [any_map_general, h]
  simp [docIssues, hasOnKey, hj]

/-- Every document-level issue string carries the `Missing '...` prefix. -/
theorem docIssues_shape (kvs : List (YKey × Yaml)) :
    ∀ m ∈ docIssues kvs, ∃ r, m = "Missing '" ++ r := by
  intro m hm
  unfold docIssues at hm
  rw [List.mem_append, List.mem_append] at hm
  rcases hm with (hm | hm) | hm
  · cases h : hasKeyStr kvs "name" with
    | true => rw [h] at hm; simp at hm
    | false =>
      rw [h] at hm
      simp at hm
      exact ⟨"name' field", by rw [hm]; decide⟩
  · cases h : hasOnKey kvs with
    | true => rw [h] at hm; simp at hm
    | false =>
      rw [h] at hm
      simp at hm
      exact ⟨"on' field (triggers)", by rw [hm]; decide⟩
  · cases h : hasKeyStr kvs "jobs" with
    | true => rw [h] at hm; simp at hm
    | false =>
      rw [h] at hm
      simp at hm
      exact ⟨"jobs' field", by rw [hm]; decide⟩

/-- With a trigger key present, the missing-trigger message is not among
the document-level issues. -/
theorem onMsg_not_in_docIssues {kvs : List (YKey × Yaml)}
    (h : hasOnKey kvs = true) : onMsg ∉ docIssues kvs := by
  intro hm
  unfold docIssues at hm
  rw [h] at hm
  rw [List.mem_append, List.mem_append] at hm
  rcases hm with (hm | hm) | hm
  · cases hname : hasKeyStr kvs "name" with
    | true => rw [hname] at hm; simp at hm
    | false =>
      rw [hname] at hm
      simp at hm
      exact absurd hm (by decide)
  · simp at hm
  · cases hjobs : hasKeyStr kvs "jobs" with
    | true => rw [hjobs] at hm; simp at hm
    | false =>
      rw [hjobs] at hm
      simp at hm
      exact absurd hm (by decide)

/-- With a trigger key present, the missing-trigger message is not among
the issues of a successful body. -/
theorem onMsg_not_in_body {kvs : List (YKey × Yaml)} {issues : List String}
    (h : hasOnKey kvs = true) (hb : validateBody (.map kvs) = .ok issues) :
    onMsg ∉ issues := by
  cases hjobs : hasKeyStr kvs "jobs" with
  | false =>
    rw [validateBody_map_nojobs hjobs] at hb
    simp at hb
    subst hb
    exact onMsg_not_in_docIssues h
  | true =>
    obtain ⟨v, hl⟩ := lookup_of_hasKeyStr hjobs
    rw [validateBody_map_jobs hl] at hb
    cases hi : pyItems v with
    | error e => rw [hi] at hb; exact Except.noConfusion hb
    | ok items =>
      rw [hi] at hb
      dsimp only at hb
      cases hp : processJobs items with
      | error e => rw [hp] at hb; exact Except.noConfusion hb
      | ok ji =>
        rw [hp] at hb
        simp at hb
        subst hb
        intro hm
        rw [List.mem_append] at hm
        cases hm with
        | inl hm => exact onMsg_not_in_docIssues h hm
        | inr hm =>
          obtain ⟨r, hr⟩ := processJobs_shape hp onMsg hm
          exact onMsg_ne_jobPrefixed r hr

/-- With a trigger key present, the missing-trigger message never appears
in the result of the whole function. -/
theorem onMsg_not_in_validate {kvs : List (YKey × Yaml)} (h : hasOnKey kvs = true) :
    onMsg ∉ (validate_github_actions_workflow (.map kvs)).2 := by
  unfold validate_github_actions_workflow
  cases hb : validateBody (.map kvs) with
  | ok issues =>
    simpa using onMsg_not_in_body h hb
  | error e =>
    simp
    exact fun heq => onMsg_ne_errPrefixed e heq

/-- Replacing one key of a mapping entry by another key that equally fails
a string comparison does not change dict membership for that string. -/
theorem hasKeyStr_middle (l1 l2 : List (YKey × Yaml)) (k k' : YKey) (v : Yaml)
    (t : String) (hk : keyIsStr k t = false) (hk' : keyIsStr k' t = false) :
    hasKeyStr (l1 ++ (k, v) :: l2) t = hasKeyStr (l1 ++ (k', v) :: l2) t := by
  simp [hasKeyStr, List.any_append, List.any_cons, hk, hk']

/-- Replacing one key of a mapping entry by another key that equally fails
a string comparison does not change dict lookup for that string. -/
theorem dictLookup_middle (l1 l2 : List (YKey × Yaml)) (k k' : YKey) (v : Yaml)
    (t : String) (hk : keyIsStr k t = false) (hk' : keyIsStr k' t = false) :
    dictLookup (l1 ++ (k, v) :: l2) t = dictLookup (l1 ++ (k', v) :: l2) t := by
  unfold dictLookup
  rw [List.find?_append, List.find?_append, List.find?_cons, List.find?_cons]
  rw [hk, hk']

/-- The body of the validator only inspects a mapping through the `name`
membership test, the trigger-key scan, and the `jobs` membership and
lookup; two mappings agreeing on those agree on the body's result. -/
theorem validateBody_congr {kvs kvs' : List (YKey × Yaml)}
    (h1 : hasKeyStr kvs "name" = hasKeyStr kvs' "name")
    (h2 : hasOnKey kvs = hasOnKey kvs')
    (h3 : hasKeyStr kvs "jobs" = hasKeyStr kvs' "jobs")
    (h4 : dictLookup kvs "jobs" = dictLookup kvs' "jobs") :
    validateBody (.map kvs) = validateBody (.map kvs') := by
  have h2' : (kvs.any fun kv => isOnKey kv.1) = kvs'.any fun kv => isOnKey kv.1 := h2
  unfold validateBody
  simp only [pyIn, pyKeys, pySubscript]
  rw [any_map_general, any_map_general]
  rw [h1, h2', h3, h4]

/-- The invalid-file counter of `main` counts the results that fail
`is_valid and not issues`, whatever the accumulator it starts from. -/
theorem summaryCounts_go : ∀ (l : List (Bool × List String)) (a b : Nat),
    (l.foldl
      (fun acc r => if r.1 && r.2.isEmpty then (acc.1 + 1, acc.2) else (acc.1, acc.2 + 1))
      (a, b)).2 = b + l.countP fun r => !(r.1 && r.2.isEmpty) := by
  intro l
  induction l with
  | nil => intro a b; simp
  | cons r rest ih =>
    intro a b
    rw [List.foldl_cons, List.countP_cons]
    cases hr : (r.1 && r.2.isEmpty) with
    | true => rw [ih]; simp [hr]
    | false => rw [ih]; simp [hr]; omega

/-- The invalid-file count of a run. -/
theorem summaryCounts_snd (results : List (Bool × List String)) :
    (summaryCounts results).2 = results.countP fun r => !(r.1 && r.2.isEmpty) := by
  unfold summaryCounts
  rw [summaryCounts_go]
  omega

/-- Claim C1: the spec requires that a `jobs` value which is not a Mapping
must not abort evaluation and must still yield a `(parsed=true, issues)`
result; the code instead raises `AttributeError` at
`workflow['jobs'].items()`, which the blanket `except Exception` turns
into the error result `(False, ["Error reading file: ..."])`.  Evaluating
the embedded function at the failing input `{"jobs": []}` exhibits the
divergence. -/
theorem C1_jobs_sequence_yields_error_result :
    validate_github_actions_workflow (.map [(.s "jobs", .seq [])]) =
      (false, ["Error reading file: 'list' object has no attribute 'items'"]) := by
  decide

/-- Claim C2, counterexample: on the non-Mapping root `[]` the function
returns the error result from the caught `AttributeError`, not the single
Document-scope issue `root must be a mapping` the claim states. -/
theorem C2_counterexample :
    validate_github_actions_workflow (.seq []) =
      (false, ["Error reading file: 'list' object has no attribute 'keys'"]) ∧
    (validate_github_actions_workflow (.seq [])).2 ≠ ["root must be a mapping"] := by
  decide

/-- Claim C2, amended: for every parsed document whose root is not a
Mapping, evaluation returns an error result: `parsed=false` with exactly
one message, namely `Error reading file: ` followed by the caught
exception's text; no rule issues are produced. -/
theorem C2_nonmapping_root_error_result (w : Yaml) (h : isMapping w = false) :
    (validate_github_actions_workflow w).1 = false ∧
    ∃ e, (validate_github_actions_workflow w).2 = ["Error reading file: " ++ e] := by
  cases w with
  | map kvs => exact absurd h (by simp [isMapping])
  | s t => exact ⟨rfl, _, rfl⟩
  | seq xs => exact ⟨rfl, _, rfl⟩
  | b c => exact ⟨rfl, _, rfl⟩
  | i n => exact ⟨rfl, _, rfl⟩
  | null => exact ⟨rfl, _, rfl⟩

/-- Claim C2, witness: the amended statement applied to the root `7`. -/
theorem C2_witness :
    isMapping (Yaml.i 7) = false ∧
    ((validate_github_actions_workflow (Yaml.i 7)).1 = false ∧
     ∃ e, (validate_github_actions_workflow (Yaml.i 7)).2 = ["Error reading file: " ++ e]) :=
  ⟨by decide, C2_nonmapping_root_error_result (Yaml.i 7) (by decide)⟩

/-- Claim C3: every valid minimal document — a Mapping with a `name` key,
a trigger key that is the string `on` or the boolean-true key, and a
`jobs` Mapping with at least one job, each job a Mapping with `runs-on`
and a nonempty `steps` Sequence of step Mappings having `name` and
`uses` or `run` — evaluates to the empty issue sequence. -/
theorem C3_valid_minimal_document_no_issues (w : Yaml)
    (h : validMinimalC3 w = true) :
    validate_github_actions_workflow w = (true, []) := by
  cases w with
  | map kvs =>
    simp only [validMinimalC3, Bool.and_eq_true] at h
    obtain ⟨⟨hn, htrig⟩, hjm⟩ := h
    cases hl : dictLookup kvs "jobs" with
    | none => rw [hl] at hjm; exact absurd hjm (by simp)
    | some v =>
      rw [hl] at hjm
      cases v with
      | map jobs =>
        simp only [Bool.and_eq_true] at hjm
        obtain ⟨-, hall⟩ := hjm
        have hjobsIn := hasKeyStr_of_lookup hl
        have hON : hasOnKey kvs = true := by
          obtain ⟨kv, hmem, hp⟩ := List.any_eq_true.mp htrig
          exact List.any_eq_true.mpr ⟨kv, hmem, isOnKey_of_claim hp⟩
        have hpj : processJobs jobs = .ok [] :=
          processJobs_valid jobs fun kv hkv => List.all_eq_true.mp hall kv hkv
        unfold validate_github_actions_workflow
        rw [validateBody_map_jobs hl]
        simp [pyItems, hpj, docIssues, hn, hON, hjobsIn]
      | s t => exact absurd hjm (by simp)
      | b c => exact absurd hjm (by simp)
      | i n => exact absurd hjm (by simp)
      | null => exact absurd hjm (by simp)
      | seq xs => exact absurd hjm (by simp)
  | s t => simp [validMinimalC3] at h
  | b c => simp [validMinimalC3] at h
  | i n => simp [validMinimalC3] at h
  | null => simp [validMinimalC3] at h
  | seq xs => simp [validMinimalC3] at h

/-- Claim C3, witness: a concrete valid minimal document with a string
`on` trigger key evaluates to no issues. -/
theorem C3_witness :
    validMinimalC3 (.map [(.s "name", .s "CI"), (.s "on", .map []),
      (.s "jobs", .map [(.s "build",
        .map [(.s "runs-on", .s "ubuntu-latest"),
              (.s "steps", .seq [.map [(.s "name", .s "Checkout"),
                                       (.s "uses", .s "actions/checkout@v4")]])])])]) = true ∧
    validate_github_actions_workflow (.map [(.s "name", .s "CI"), (.s "on", .map []),
      (.s "jobs", .map [(.s "build",
        .map [(.s "runs-on", .s "ubuntu-latest"),
              (.s "steps", .seq [.map [(.s "name", .s "Checkout"),
                                       (.s "uses", .s "actions/checkout@v4")]])])])]) = (true, []) :=
  ⟨by decide, C3_valid_minimal_document_no_issues _ (by decide)⟩

/-- Claim C4: the empty Mapping evaluates to exactly the three
document-level issues, in program order. -/
theorem C4_empty_mapping_three_issues :
    validate_github_actions_workflow (.map []) =
      (true, ["Missing 'name' field", "Missing 'on' field (triggers)",
        "Missing 'jobs' field"]) := by
  decide

/-- Claim C5, counterexample: the empty Mapping lacks `jobs`, yet
evaluation returns three issues, not exactly one. -/
theorem C5_counterexample :
    hasKeyStr ([] : List (YKey × Yaml)) "jobs" = false ∧
    (validate_github_actions_workflow (.map [])).2.length = 3 := by
  decide

/-- Claim C5, amended: for every Mapping document lacking a `jobs` key,
evaluation returns `parsed=true`, the issue `Missing 'jobs' field` occurs
exactly once, and every issue is Document-scope (a `Missing '...` message;
the missing-name and missing-trigger issues may accompany it). -/
theorem C5_missing_jobs_document_scope_only (kvs : List (YKey × Yaml))
    (h : hasKeyStr kvs "jobs" = false) :
    (validate_github_actions_workflow (.map kvs)).1 = true ∧
    (validate_github_actions_workflow (.map kvs)).2.count jobsMsg = 1 ∧
    ∀ m ∈ (validate_github_actions_workflow (.map kvs)).2, ∃ r, m = "Missing '" ++ r := by
  have hb := validateBody_map_nojobs h
  unfold validate_github_actions_workflow
  rw [hb]
  refine ⟨rfl, ?_, fun m hm => docIssues_shape kvs m hm⟩
  unfold docIssues
  rw [h]
  cases hname : hasKeyStr kvs "name" with
  | true =>
    cases hOn : hasOnKey kvs with
    | true => decide
    | false => decide
  | false =>
    cases hOn : hasOnKey kvs with
    | true => decide
    | false => decide

/-- Claim C5, witness: the amended statement applied to a Mapping with a
`name` key only. -/
theorem C5_witness :
    hasKeyStr [(YKey.s "name", Yaml.s "x")] "jobs" = false ∧
    ((validate_github_actions_workflow (.map [(YKey.s "name", Yaml.s "x")])).1 = true ∧
     (validate_github_actions_workflow (.map [(YKey.s "name", Yaml.s "x")])).2.count jobsMsg = 1 ∧
     ∀ m ∈ (validate_github_actions_workflow (.map [(YKey.s "name", Yaml.s "x")])).2,
       ∃ r, m = "Missing '" ++ r) :=
  ⟨by decide, C5_missing_jobs_document_scope_only _ (by decide)⟩

/-- Claim C6: two documents identical except that one spells the trigger
key as the boolean-true key (the parser's coercion of the bare reserved
word) and the other as the string `on` evaluate to identical results;
both satisfy the trigger-key rule and neither receives the missing-trigger
issue. -/
theorem C6_boolean_and_string_trigger_equivalent
    (kvs1 kvs2 : List (YKey × Yaml)) (v : Yaml) :
    validate_github_actions_workflow (.map (kvs1 ++ (YKey.b true, v) :: kvs2)) =
      validate_github_actions_workflow (.map (kvs1 ++ (YKey.s "on", v) :: kvs2)) ∧
    hasOnKey (kvs1 ++ (YKey.b true, v) :: kvs2) = true ∧
    hasOnKey (kvs1 ++ (YKey.s "on", v) :: kvs2) = true ∧
    onMsg ∉ (validate_github_actions_workflow (.map (kvs1 ++ (YKey.b true, v) :: kvs2))).2 ∧
    onMsg ∉ (validate_github_actions_workflow (.map (kvs1 ++ (YKey.s "on", v) :: kvs2))).2 := by
  have hOn1 : hasOnKey (kvs1 ++ (YKey.b true, v) :: kvs2) = true :=
    List.any_eq_true.mpr ⟨(YKey.b true, v), by simp,
      show isOnKey (YKey.b true) = true by decide⟩
  have hOn2 : hasOnKey (kvs1 ++ (YKey.s "on", v) :: kvs2) = true :=
    List.any_eq_true.mpr ⟨(YKey.s "on", v), by simp,
      show isOnKey (YKey.s "on") = true by decide⟩
  have heq : validate_github_actions_workflow (.map (kvs1 ++ (YKey.b true, v) :: kvs2)) =
      validate_github_actions_workflow (.map (kvs1 ++ (YKey.s "on", v) :: kvs2)) := by
    unfold validate_github_actions_workflow
    rw [validateBody_congr
      (hasKeyStr_middle kvs1 kvs2 (YKey.b true) (YKey.s "on") v "name"
        (by decide) (by decide))
      (hOn1.trans hOn2.symm)
      (hasKeyStr_middle kvs1 kvs2 (YKey.b true) (YKey.s "on") v "jobs"
        (by decide) (by decide))
      (dictLookup_middle kvs1 kvs2 (YKey.b true) (YKey.s "on") v "jobs"
        (by decide) (by decide))]
  exact ⟨heq, hOn1, hOn2, onMsg_not_in_validate hOn1, onMsg_not_in_validate hOn2⟩

/-- Claim C7: when every job body runs without a raised exception, the
issue sequence is the document-level block followed by the per-job blocks
concatenated in declaration order; document-level issues all carry the
`Missing '...` prefix and per-job (and per-step) issues all carry the
`Job '...` prefix, so Document-scope issues precede all Job- and
Step-scope issues and earlier-declared jobs' issues precede later ones'. -/
theorem C7_issue_order_decomposition
    (kvs jobs : List (YKey × Yaml))
    (hl : dictLookup kvs "jobs" = some (.map jobs))
    (hok : ∀ kv ∈ jobs, exceptOk (processJob (keyStr kv.1) kv.2) = true) :
    (validate_github_actions_workflow (.map kvs)).2 =
      docIssues kvs ++
        (jobs.map fun kv => exceptList (processJob (keyStr kv.1) kv.2)).flatten ∧
    (∀ m ∈ (jobs.map fun kv => exceptList (processJob (keyStr kv.1) kv.2)).flatten,
      ∃ r, m = "Job '" ++ r) ∧
    (∀ m ∈ docIssues kvs, ∃ r, m = "Missing '" ++ r) := by
  have hpj := processJobs_flatten jobs hok
  have hb := validateBody_map_jobs hl
  dsimp only [pyItems] at hb
  rw [hpj] at hb
  refine ⟨?_, fun m hm => processJobs_shape hpj m hm, docIssues_shape kvs⟩
  unfold validate_github_actions_workflow
  rw [hb]

/-- Concrete jobs mapping declaring `B` before `A`, both missing
`runs-on`. -/
def c7jobs : List (YKey × Yaml) :=
  [(YKey.s "B", .map [(.s "steps", .seq [])]),
   (YKey.s "A", .map [(.s "steps", .seq [])])]

/-- Concrete document holding the two-job mapping under its `jobs` key. -/
def c7kvs : List (YKey × Yaml) := [(YKey.s "jobs", .map c7jobs)]

/-- Claim C7, witness: the decomposition applied to a document declaring
jobs in the order `B`, `A`. -/
theorem C7_witness :
    dictLookup c7kvs "jobs" = some (.map c7jobs) ∧
    (∀ kv ∈ c7jobs, exceptOk (processJob (keyStr kv.1) kv.2) = true) ∧
    ((validate_github_actions_workflow (.map c7kvs)).2 =
      docIssues c7kvs ++
        (c7jobs.map fun kv => exceptList (processJob (keyStr kv.1) kv.2)).flatten ∧
     (∀ m ∈ (c7jobs.map fun kv => exceptList (processJob (keyStr kv.1) kv.2)).flatten,
       ∃ r, m = "Job '" ++ r) ∧
     (∀ m ∈ docIssues c7kvs, ∃ r, m = "Missing '" ++ r)) :=
  ⟨by rfl, by decide, C7_issue_order_decomposition c7kvs c7jobs (by rfl) (by decide)⟩

/-- Claim C8: the run exits with status 0 iff at least one workflow file
was discovered and every result is `parsed=true` with zero issues; it
exits with status 1 otherwise, in particular when no files were found. -/
theorem C8_exit_status_zero_iff_all_valid (results : List (Bool × List String)) :
    mainExitStatus results = 0 ↔
      results ≠ [] ∧ ∀ r ∈ results, r.1 = true ∧ r.2 = [] := by
  unfold mainExitStatus
  cases hres : results.isEmpty with
  | true =>
    rw [List.isEmpty_iff] at hres
    subst hres
    simp
  | false =>
    have hne : results ≠ [] := by
      intro h
      rw [h] at hres
      exact absurd hres (by simp)
    rw [summaryCounts_snd]
    rw [if_neg (by decide : ¬(false = true))]
    constructor
    · intro h
      refine ⟨hne, ?_⟩
      have hz : results.countP (fun r => !(r.1 && r.2.isEmpty)) = 0 := by
        by_contra hc
        have : 0 < results.countP fun r => !(r.1 && r.2.isEmpty) := Nat.pos_of_ne_zero hc
        rw [if_pos this] at h
        exact absurd h (by simp)
      intro r hr
      have := List.countP_eq_zero.mp hz r hr
      simp at this
      exact ⟨this.1, this.2⟩
    · rintro ⟨-, hall⟩
      have hz : results.countP (fun r => !(r.1 && r.2.isEmpty)) = 0 := by
        rw [List.countP_eq_zero]
        intro r hr
        obtain ⟨h1, h2⟩ := hall r hr
        simp [h1, h2]
      rw [hz]
      simp

/-- Claim C9: any Mapping containing a key whose string form lowercases to
`on` — not only the exact string `on` or the boolean-true key — satisfies
the trigger-key rule, and the missing-trigger issue is never emitted. -/
theorem C9_case_insensitive_trigger_accepted (kvs : List (YKey × Yaml))
    (h : (kvs.any fun kv => pyLower (keyStr kv.1) == "on") = true) :
    hasOnKey kvs = true ∧
    onMsg ∉ (validate_github_actions_workflow (.map kvs)).2 := by
  have hOn : hasOnKey kvs = true := by
    obtain ⟨kv, hmem, hp⟩ := List.any_eq_true.mp h
    exact List.any_eq_true.mpr ⟨kv, hmem, by simp [isOnKey, hp]⟩
  exact ⟨hOn, onMsg_not_in_validate hOn⟩

/-- Claim C9, witness: the uppercase key `ON`, which is neither the exact
string `on` nor the boolean-true key, is accepted. -/
theorem C9_witness :
    ([((YKey.s "ON" : YKey), Yaml.null)].any fun kv => pyLower (keyStr kv.1) == "on") = true ∧
    (hasOnKey [((YKey.s "ON" : YKey), Yaml.null)] = true ∧
     onMsg ∉ (validate_github_actions_workflow (.map [((YKey.s "ON" : YKey), Yaml.null)])).2) :=
  ⟨by decide, C9_case_insensitive_trigger_accepted _ (by decide)⟩

/-- Claim C10: a job Mapping whose `steps` key holds an empty Sequence
produces no step issues and no missing-steps issue; its only possible
issue is the missing-`runs-on` one. -/
theorem C10_empty_steps_pass_silently (jobName : String) (jckvs : List (YKey × Yaml))
    (h : dictLookup jckvs "steps" = some (.seq [])) :
    processJob jobName (.map jckvs) =
      .ok (if hasKeyStr jckvs "runs-on" then []
           else ["Job '" ++ jobName ++ "' missing 'runs-on' field"]) := by
  have hin := hasKeyStr_of_lookup h
  unfold processJob
  simp only [pyIn, pySubscript, hin, h]
  simp [pyIter, processSteps]

/-- Claim C10, witness: a job with `runs-on` and an empty `steps` Sequence
produces no issues at all. -/
theorem C10_witness :
    dictLookup [(YKey.s "runs-on", Yaml.s "ubuntu-latest"),
        (YKey.s "steps", Yaml.seq [])] "steps" = some (.seq []) ∧
    processJob "build" (.map [(YKey.s "runs-on", Yaml.s "ubuntu-latest"),
        (YKey.s "steps", Yaml.seq [])]) =
      .ok (if hasKeyStr [(YKey.s "runs-on", Yaml.s "ubuntu-latest"),
          (YKey.s "steps", Yaml.seq [])] "runs-on" then []
        else ["Job '" ++ "build" ++ "' missing 'runs-on' field"]) :=
  ⟨by rfl, C10_empty_steps_pass_silently "build" _ (by rfl)⟩
